import Mathlib

/-!
Verification of the message dispatch and executor-selection core of the
screwdriver-cd/aws-consumer-service repository (`index.go`), against its
natural-language specification.

The embedding models the per-message processor (`ProcessMessage`), the
executor registry (`GetExecutor`), the panic recovery helpers
(`recoverPanic`, `finalRecover`) and the batch dispatcher (`HandleRequest`).

Modelling conventions:
* A Go `map[string]interface{}` decoded from JSON is an association list
  `JObj` with unique keys; `lookupJ` is map lookup and `insertAssoc` is
  map assignment.
* `decoder.UseNumber()` makes the JSON decoder store numbers as
  `json.Number`, i.e. the literal decimal text; `JsonNumber` keeps the
  sign and the little-endian decimal digit list of that literal, and
  `JsonNumber.int64` is `(json.Number).Int64()` (strconv.ParseInt:
  exact positional evaluation, clamped at the int64 range boundaries).
* A worker body finishes in one of three ways, captured by `Outcome`:
  `normal` (the function returns), `panicked` (a runtime panic, e.g. a
  failed type assertion, to be handled by the deferred `recoverPanic`),
  or `fatal` (`log.Fatal`, i.e. `os.Exit(1)`: deferred functions do NOT
  run and the whole process terminates).
* External collaborators (the two executors' `Start`/`Stop`, the
  build-tracking API, the stack-trace file write, the clock) are oracles
  collected in `Env`.
* A Kafka record's payload is characterised by what the standard-library
  decoders return on it (`RawRecord`): whether base64 decoding reported
  an error, and the JSON syntax tree of the (possibly partial) decoded
  text, `none` when that text is not valid JSON.
-/

namespace AwsConsumer

/-- Little-endian decimal digits of `n`, computed with `n` itself as fuel
(the fuel is never exhausted since `n / 10 < n` for `n > 0`). -/
def digitsAux : Nat → Nat → List Nat
  | 0, _ => []
  | fuel + 1, n => if n = 0 then [] else (n % 10) :: digitsAux fuel (n / 10)

/-- Little-endian decimal digits of a natural number (empty for 0). -/
def digits10 (n : Nat) : List Nat := digitsAux n n

/-- Positional evaluation of a little-endian decimal digit list
(the semantics of strconv.ParseInt's digit loop). -/
def ofDigits10 : List Nat → Nat
  | [] => 0
  | d :: ds => d + 10 * ofDigits10 ds

/-- Model of Go's `json.Number` for integer literals, as produced by a
decoder with `UseNumber()`: the literal's sign and decimal digits. -/
structure JsonNumber where
  neg : Bool
  digs : List Nat
deriving DecidableEq, Repr

/-- The `json.Number` the `UseNumber` decoder produces for the JSON
integer literal denoting `n`. -/
def JsonNumber.ofInt (n : Int) : JsonNumber :=
  ⟨decide (n < 0), digits10 n.natAbs⟩

/-- The integer denoted by the literal. -/
def JsonNumber.toInt (j : JsonNumber) : Int :=
  if j.neg then -(ofDigits10 j.digs : Int) else (ofDigits10 j.digs : Int)

def int64Min : Int := -(2 ^ 63)

def int64Max : Int := 2 ^ 63 - 1

/-- `(json.Number).Int64()` with the error dropped, as in
`buildID, _ := buildConfig["buildId"].(json.Number).Int64()`:
strconv.ParseInt returns the exact value, clamped to the int64 limits on
range error (the error itself is discarded by the caller). -/
def JsonNumber.int64 (j : JsonNumber) : Int :=
  if j.toInt < int64Min then int64Min
  else if int64Max < j.toInt then int64Max
  else j.toInt

/-- Generic decoded JSON value (the shape `encoding/json` produces for
`interface{}` targets when `UseNumber()` is set). -/
inductive JValue where
  | null : JValue
  | bool : Bool → JValue
  | num : JsonNumber → JValue
  | str : String → JValue
  | arr : List JValue → JValue
  | obj : List (String × JValue) → JValue

/-- A decoded Go `map[string]interface{}`. -/
abbrev JObj := List (String × JValue)

/-- Go map lookup (`m[k]`), `none` when absent. -/
def lookupJ : JObj → String → Option JValue
  | [], _ => none
  | (k2, v) :: t, k => if k2 = k then some v else lookupJ t k

/-- Go map assignment (`m[k] = v`): replace the binding if present,
append otherwise. -/
def insertAssoc : JObj → String → JValue → JObj
  | [], k, v => [(k, v)]
  | (k2, v2) :: t, k, v => if k2 = k then (k, v) :: t else (k2, v2) :: insertAssoc t k v

/-- Decoding a JSON object into an existing (pre-seeded) Go map: every
key of the object is assigned into the map, in order. -/
def mergeInto (base : JObj) (add : JObj) : JObj :=
  add.foldl (fun m kv => insertAssoc m kv.1 kv.2) base

/-- Whether a key is bound in the object. -/
def containsKey (m : JObj) (k : String) : Bool :=
  (lookupJ m k).isSome

/-- Go's `m[k] == nil` test on a decoded JSON map: true when the key is
absent or its decoded value is JSON null (a nil `interface{}`). -/
def goIsNil : Option JValue → Bool
  | none => true
  | some .null => true
  | some _ => false

/-- The pre-seeded top-level BuildConfig defaults (`index.go` lines
88-94): the map the decoder merges the incoming `buildConfig` object
into. -/
def topDefaults : JObj :=
  [("container", .str "aws/codebuild/standard:5.0"),
   ("serviceAccountName", .str "default")]

/-- The provider-level defaults, decoded (with `UseNumber`) from the
`messageProviderDefaults` JSON literal (`index.go` lines 104-116). -/
def providerDefaults : JObj :=
  [("executorLogs", .bool false),
   ("dlc", .bool false),
   ("privilegedMode", .bool false),
   ("prune", .bool true),
   ("imagePullCredentialsType", .str "SERVICE_ROLE"),
   ("environmentType", .str "LINUX_CONTAINER"),
   ("computeType", .str "BUILD_GENERAL1_SMALL"),
   ("queuedTimeout", .num (JsonNumber.ofInt 5)),
   ("launcherComputeType", .str "BUILD_GENERAL1_SMALL"),
   ("buildRegion", .str ""),
   ("debugSession", .bool false)]

/-- The provider-defaulting loop (`index.go` lines 125-129):
`for k, v := range providerDefaults { if provider[k] == nil { provider[k] = v } }`. -/
def applyProviderDefaults (p : JObj) : JObj :=
  providerDefaults.foldl
    (fun m kv => if goIsNil (lookupJ m kv.1) then insertAssoc m kv.1 kv.2 else m) p

/-- The `BuildMessage` struct (`index.go` lines 29-33). -/
structure BuildMessage where
  job : String
  buildConfig : JObj
  executorType : String

/-- Result of `decoder.Decode(&buildMesage)`: `fatal` models a decode
error (the caller runs `log.Fatal`), `nilMsg` models JSON `null`
(which sets the `*BuildMessage` pointer to nil, so the subsequent field
access panics), `ok` carries the decoded struct. -/
inductive DecodeOut where
  | fatal : DecodeOut
  | nilMsg : DecodeOut
  | ok : BuildMessage → DecodeOut

/-- Decoding one JSON object member into the `BuildMessage` struct:
`job`/`executorType` require a string (JSON null is a no-op),
`buildConfig` requires an object that is merged into the existing map,
unknown members are ignored, and a type mismatch is a decode error. -/
def decodeField (m : BuildMessage) (k : String) (v : JValue) : DecodeOut :=
  if k = "job" then
    match v with
    | .str s => .ok { m with job := s }
    | .null => .ok m
    | _ => .fatal
  else if k = "executorType" then
    match v with
    | .str s => .ok { m with executorType := s }
    | .null => .ok m
    | _ => .fatal
  else if k = "buildConfig" then
    match v with
    | .obj o => .ok { m with buildConfig := mergeInto m.buildConfig o }
    | .null => .ok m
    | _ => .fatal
  else .ok m

/-- Fold a JSON object's members into the struct, aborting on the first
decode error. -/
def decodeFieldsAux : BuildMessage → List (String × JValue) → DecodeOut
  | m, [] => .ok m
  | m, (k, v) :: t =>
    match decodeField m k v with
    | .ok m2 => decodeFieldsAux m2 t
    | .fatal => .fatal
    | .nilMsg => .nilMsg

/-- The struct value before decoding: zero strings and the pre-seeded
`buildConfig` defaults (`index.go` lines 88-94). -/
def initialBuildMessage : BuildMessage := ⟨"", topDefaults, ""⟩

/-- `decoder.Decode(&buildMesage)` on the JSON syntax tree of the
message text. A non-object, non-null top-level value is a decode error. -/
def decodeBuildMessage : JValue → DecodeOut
  | .null => .nilMsg
  | .obj fields => decodeFieldsAux initialBuildMessage fields
  | _ => .fatal

/-- An executor instance as observable through the `IExecutor`
interface: its `Name()` and the region it was constructed with. -/
structure ExecutorRef where
  name : String
  region : String

/-- `executorsList` (`index.go` lines 43-45): the eks executor and the
serverless executor, both constructed for the given region. Their
`Name()` methods return `"eks"` (executor/eks/eks.go) and `"sls"`
(executor/serverless/serverless.go). -/
def executorsList (region : String) : List ExecutorRef :=
  [⟨"eks", region⟩, ⟨"sls", region⟩]

/-- `GetExecutor` (`index.go` lines 48-58): linear scan keeping the
last executor whose `Name()` equals `name`; `none` models the nil
`IExecutor` returned on a lookup miss. -/
def GetExecutor (name : String) (region : String) : Option ExecutorRef :=
  (executorsList region).foldl
    (fun acc v => if v.name = name then some v else acc) none

/-- One observable executor-interface invocation. -/
inductive ExecCall where
  | start : String → String → JObj → ExecCall
  | stop : String → String → JObj → ExecCall

/-- Oracles for the external collaborators: the executors' `Start` and
`Stop` results (keyed by executor name, region and config), whether the
stack-trace file write succeeds, the temp directory, and the current
RFC3339 timestamp. -/
structure Env where
  startResult : String → String → JObj → String × Option String
  stopResult : String → String → JObj → Option String
  writeFileOk : Bool
  tempDir : String
  now : String

/-- A concrete environment used for concrete evaluations. -/
def defaultEnv : Env :=
  ⟨fun _ _ _ => ("ip-10-0-0-1", none), fun _ _ _ => none, true, "/tmp",
   "2022-01-01T00:00:00Z"⟩

/-- How one run of the worker body ends. -/
inductive Outcome where
  | normal : Outcome
  | panicked : String → Outcome
  | fatal : Outcome
deriving DecidableEq, Repr

/-- Observable result of one run of the worker body (`ProcessMessage`
before its deferred functions are considered). -/
structure BodyResult where
  outcome : Outcome
  calls : List ExecCall
  updateCalled : Bool
  hostname : String
  buildID : Int
  dispatchErr : Option String

/-- Effective region resolution (`index.go` lines 137-140):
`provider["buildRegion"].(string)`, falling back to
`provider["region"].(string)` when it is empty; `none` models a failed
type assertion (a panic). -/
def resolveRegion (p : JObj) : Option String :=
  match lookupJ p "buildRegion" with
  | some (.str br) =>
    if br = "" then
      match lookupJ p "region" with
      | some (.str r) => some r
      | _ => none
    else some br
  | _ => none

/-- `buildConfig["buildId"].(json.Number).Int64()` (`index.go` line
156): `none` models the panic of the failed `json.Number` type
assertion; otherwise the (clamped-exact) parsed integer. -/
def extractBuildID (cfg : JObj) : Option Int :=
  match lookupJ cfg "buildId" with
  | some (.num j) => some j.int64
  | _ => none

/-- `index.go` lines 156-158, run after the job switch: the `buildId`
`json.Number` assertion, then the `apiUri` and `token` string assertions
for the API-client constructor, then `UpdateBuildStats` (which PUTs
build stats only when `hostname` is non-empty; its own error is only
logged). `calls` and `hostname` carry what the dispatch produced. -/
def finishDispatch (cfg : JObj) (calls : List ExecCall) (hostname : String)
    (err : Option String) : BodyResult :=
  match extractBuildID cfg with
  | none => ⟨.panicked "buildId-assert", calls, false, hostname, 0, err⟩
  | some b =>
    match lookupJ cfg "apiUri" with
    | some (.str _) =>
      match lookupJ cfg "token" with
      | some (.str _) => ⟨.normal, calls, hostname != "", hostname, b, err⟩
      | _ => ⟨.panicked "token-assert", calls, false, hostname, b, err⟩
    | _ => ⟨.panicked "apiUri-assert", calls, false, hostname, b, err⟩


/-- The `"start"` arm of the job switch (`index.go` line 147):
`hostname, err = executor.Start(buildConfig)`. Calling the method on
the nil executor returned by a lookup miss is a runtime panic. -/
def dispatchStart (env : Env) (cfg : JObj) (berr : Option String) :
    Option ExecutorRef → BodyResult
  | none => ⟨.panicked "nil-executor", [], false, "", 0, berr⟩
  | some e =>
    finishDispatch cfg [ExecCall.start e.name e.region cfg]
      (env.startResult e.name e.region cfg).1
      (env.startResult e.name e.region cfg).2

/-- The `"stop"` arm of the job switch (`index.go` line 149):
`err = executor.Stop(buildConfig)`; `hostname` stays empty. -/
def dispatchStop (env : Env) (cfg : JObj) (berr : Option String) :
    Option ExecutorRef → BodyResult
  | none => ⟨.panicked "nil-executor", [], false, "", 0, berr⟩
  | some e =>
    finishDispatch cfg [ExecCall.stop e.name e.region cfg] ""
      (env.stopResult e.name e.region cfg)

/-- The `switch string(job)` dispatch (`index.go` lines 142-159), for a
message that passed the `executorType != "" && job != ""` guard:
`"start"` calls `executor.Start(buildConfig)`, `"stop"` calls
`executor.Stop(buildConfig)`, any other job value calls neither and
leaves `err` (the base64-decode error variable) and `hostname`
untouched. -/
def dispatchAndReport (env : Env) (msg : BuildMessage) (cfg : JObj)
    (region : String) (berr : Option String) : BodyResult :=
  if msg.job = "start" then
    dispatchStart env cfg berr (GetExecutor msg.executorType region)
  else if msg.job = "stop" then
    dispatchStop env cfg berr (GetExecutor msg.executorType region)
  else finishDispatch cfg [] "" berr

/-- `index.go` lines 137-159 with the resolved region as argument: a
failed region type assertion panics before the `executorType`/`job`
guard is evaluated; past the guard the job switch runs. -/
def processRegion (env : Env) (msg : BuildMessage) (berr : Option String)
    (cfg : JObj) : Option String → BodyResult
  | none => ⟨.panicked "region-assert", [], false, "", 0, berr⟩
  | some region =>
    if msg.executorType ≠ "" ∧ msg.job ≠ "" then
      dispatchAndReport env msg cfg region berr
    else ⟨.normal, [], false, "", 0, berr⟩

/-- `index.go` lines 101-159 with `buildConfig["provider"]` as
argument: the `.(map[string]interface{})` assertion panics unless the
value is an object; then the provider-defaults loop runs, the merged
provider is written back into the config, and processing continues
with the resolved region. -/
def processProvider (env : Env) (msg : BuildMessage) (berr : Option String) :
    Option JValue → BodyResult
  | some (.obj p) =>
    processRegion env msg berr
      (insertAssoc msg.buildConfig "provider" (.obj (applyProviderDefaults p)))
      (resolveRegion (applyProviderDefaults p))
  | _ => ⟨.panicked "provider-assert", [], false, "", 0, berr⟩

/-- `index.go` lines 101-161, after a successful struct decode. -/
def processDecoded (env : Env) (msg : BuildMessage) (berr : Option String) :
    BodyResult :=
  processProvider env msg berr (lookupJ msg.buildConfig "provider")

/-- What the standard-library decoders yield on one Kafka record's
`Value`: whether `base64.StdEncoding.DecodeString` reported an error
(it still returns the bytes decoded so far), and the JSON syntax tree
of the resulting text, `none` when that text is not valid JSON (so
`decoder.Decode` errors). -/
structure RawRecord where
  b64ok : Bool
  json : Option JValue

/-- The body of `ProcessMessage` (`index.go` lines 78-161): a base64
error is only logged, an invalid JSON text hits `log.Fatal` (a `fatal`
outcome: `os.Exit(1)`, no deferred function runs), a JSON `null`
message makes the later field access panic, and an object is decoded
and processed. -/
def processBody (env : Env) (rec : RawRecord) : BodyResult :=
  let berr : Option String := if rec.b64ok then none else some "illegal base64 data"
  match rec.json with
  | none => ⟨.fatal, [], false, "", 0, berr⟩
  | some ast =>
    match decodeBuildMessage ast with
    | .fatal => ⟨.fatal, [], false, "", 0, berr⟩
    | .nilMsg => ⟨.panicked "nil-message", [], false, "", 0, berr⟩
    | .ok msg => processDecoded env msg berr

/-- Observable behaviour of `recoverPanic` (`index.go` lines 165-177)
when the deferred call runs with `p` the recovered panic value (`none`
when the body returned normally, so `recover()` yields nil). It never
re-raises; on a panic it logs, and writes the stack trace to
`filepath.Join(os.TempDir(), "stacktrace-<RFC3339 now>")` best-effort,
logging a write failure instead of propagating it. -/
structure RecoverOut where
  recovered : Bool
  reRaised : Bool
  loggedPanic : Bool
  artifact : Option String
  loggedWriteFailure : Bool
deriving DecidableEq, Repr

/-- The stack-trace artifact path `recoverPanic` targets. -/
def stacktracePath (env : Env) : String :=
  env.tempDir ++ "/" ++ "stacktrace-" ++ env.now

/-- The artifact actually produced: the file when the write succeeds,
nothing (plus a logged error) otherwise. -/
def recoverArtifact (env : Env) : Option String :=
  if env.writeFileOk then some (stacktracePath env) else none

/-- `recoverPanic` (`index.go` lines 165-177). -/
def recoverPanic (env : Env) (p : Option String) : RecoverOut :=
  match p with
  | none => ⟨false, false, false, none, false⟩
  | some _ =>
    ⟨true, false, true, recoverArtifact env, !env.writeFileOk⟩

/-- Observable result of one worker goroutine running
`ProcessMessage`: how many times the WaitGroup counter was decremented,
whether a panic escaped the goroutine, whether the process was
terminated (`log.Fatal`), the executor calls made, and what the
deferred `recoverPanic` did. -/
structure WorkerResult where
  completions : Nat
  escaped : Bool
  fatal : Bool
  calls : List ExecCall
  recov : RecoverOut

/-- `ProcessMessage` (`index.go` lines 74-162) as one worker goroutine:
the deferred `wg.Done()` and `recoverPanic()` run (in LIFO order) on
normal return and on panic, but not on the `log.Fatal` exit, which
kills the process before any deferred function runs. `recover()`
consumes the panic, so it never escapes the goroutine. -/
def ProcessMessage (env : Env) (rec : RawRecord) : WorkerResult :=
  let b := processBody env rec
  match b.outcome with
  | .fatal => ⟨0, false, true, b.calls, recoverPanic env none⟩
  | .normal => ⟨1, false, false, b.calls, recoverPanic env none⟩
  | .panicked tag =>
    ⟨1, (recoverPanic env (some tag)).reRaised, false, b.calls,
     recoverPanic env (some tag)⟩

/-- Observable behaviour of `finalRecover` (`index.go` lines 181-186):
if a panic reached the batch boundary it is written to stderr and
swallowed, never re-raised. -/
structure FinalOut where
  wroteStderr : Bool
  reRaised : Bool
deriving DecidableEq, Repr

/-- `finalRecover` (`index.go` lines 181-186). -/
def finalRecover (p : Option String) : FinalOut :=
  match p with
  | none => ⟨false, false⟩
  | some _ => ⟨true, false⟩

/-- What `HandleRequest` produces for its caller: the summary string
and error on return, or `fatal` when some worker's `log.Fatal`
terminated the process so the invocation never returns. -/
inductive HandleResult where
  | ret : String → Option String → HandleResult
  | fatal : HandleResult
deriving DecidableEq, Repr

/-- Whether processing this record ends in the `log.Fatal` exit. -/
def bodyFatal (env : Env) (rec : RawRecord) : Bool :=
  match (processBody env rec).outcome with
  | .fatal => true
  | _ => false

/-- The inbound Kafka event: partition key to ordered record list
(`request.Records`). -/
abbrev KafkaEvent := List (String × List RawRecord)

/-- `totalRecords` accumulation (`index.go` line 199). -/
def totalRecords (request : KafkaEvent) : Nat :=
  request.foldl (fun acc p => acc + p.2.length) 0

/-- The summary string of `index.go` line 211. -/
def summaryString (request : KafkaEvent) : String :=
  "Finished processing messages: " ++ toString (totalRecords request)

/-- Whether every record of the event avoids the `log.Fatal` exit. -/
def allNonFatal (env : Env) (request : KafkaEvent) : Bool :=
  request.all (fun p => p.2.all (fun r => !bodyFatal env r))

/-- Sum of the WaitGroup decrements of one partition's workers; the
dispatcher's `wg.Wait()` returns only once this reaches the partition's
record count. -/
def partitionCompletions (env : Env) (recs : List RawRecord) : Nat :=
  recs.foldl (fun acc r => acc + (ProcessMessage env r).completions) 0

/-- Sum of the WaitGroup decrements over all partitions. -/
def totalCompletions (env : Env) (request : KafkaEvent) : Nat :=
  request.foldl (fun acc p => acc + partitionCompletions env p.2) 0

/-- All executor-interface calls made while processing the event. -/
def allCalls (env : Env) (request : KafkaEvent) : List ExecCall :=
  request.foldl
    (fun acc p => acc ++ p.2.foldl (fun a r => a ++ (ProcessMessage env r).calls) []) []

/-- `HandleRequest` (`index.go` lines 189-212): fan out one worker per
record in each partition, wait for the partition's WaitGroup, and
return the summary with a nil error — unless some worker's `log.Fatal`
terminated the process, in which case the invocation never returns. -/
def HandleRequest (env : Env) (request : KafkaEvent) : HandleResult :=
  if allNonFatal env request then
    .ret (summaryString request) none
  else .fatal

/-- Whether `buildConfig["provider"]` would fail the
`.(map[string]interface{})` type assertion: the key is absent, JSON
null, or bound to a non-object value. -/
def providerNotObj (cfg : JObj) : Bool :=
  match lookupJ cfg "provider" with
  | some (.obj _) => false
  | _ => true

/-! ## Concrete inputs used for evaluations -/

/-- A record whose `Value` is the empty string: base64 decoding
succeeds and yields the empty text, which is not valid JSON. -/
def emptyPayloadRecord : RawRecord := ⟨true, none⟩

/-- A record whose `Value` is not valid base64 (say `"!!!!"`):
`DecodeString` errors with an empty decoded prefix, which is not valid
JSON. -/
def invalidBase64Record : RawRecord := ⟨false, none⟩

/-- A provider sub-map carrying only a region. -/
def sampleProvider : JObj := [("region", .str "us-east-1")]

/-- A buildConfig with provider, buildId, apiUri and token, as a
well-formed start message carries. -/
def sampleConfig : JObj :=
  [("provider", .obj sampleProvider),
   ("buildId", .num (JsonNumber.ofInt 353239)),
   ("apiUri", .str "https://api.screwdriver.cd/v4"),
   ("token", .str "sd-token")]

/-- A record decoding to `job = "start"`, `executorType = "eks"` with a
complete config. -/
def startEksRecord : RawRecord :=
  ⟨true, some (.obj [("job", .str "start"), ("executorType", .str "eks"),
    ("buildConfig", .obj sampleConfig)])⟩

/-- A record decoding to `job = "start"` with an executorType matching
no registered executor. -/
def unknownExecRecord : RawRecord :=
  ⟨true, some (.obj [("job", .str "start"), ("executorType", .str "unknown"),
    ("buildConfig", .obj sampleConfig)])⟩

/-- A record whose decoded message has no `buildConfig` member at all,
so its config is just the pre-seeded defaults, with no `provider` key. -/
def missingProviderRecord : RawRecord :=
  ⟨true, some (.obj [("job", .str "start"), ("executorType", .str "eks")])⟩

/-- A decoded start/eks message whose provider sub-map is empty, so no
region can be resolved. -/
def noRegionMessage : BuildMessage :=
  ⟨"start", mergeInto topDefaults [("provider", .obj [])], "eks"⟩

/-- The decoded message of `startEksRecord`. -/
def startEksMessage : BuildMessage := ⟨"start", sampleConfig, "eks"⟩

/-- A decoded message with an empty job, to be skipped by the
dispatch guard. -/
def emptyJobMessage : BuildMessage := ⟨"", topDefaults, "eks"⟩

/-- A provider sub-map binding every provider-default key (non-null)
plus a region. -/
def fullProvider : JObj :=
  [("executorLogs", .bool true), ("dlc", .bool true),
   ("privilegedMode", .bool true), ("prune", .bool false),
   ("imagePullCredentialsType", .str "CODEBUILD"),
   ("environmentType", .str "ARM_CONTAINER"),
   ("computeType", .str "BUILD_GENERAL1_LARGE"),
   ("queuedTimeout", .num (JsonNumber.ofInt 10)),
   ("launcherComputeType", .str "BUILD_GENERAL1_MEDIUM"),
   ("buildRegion", .str "us-west-2"), ("debugSession", .bool true),
   ("region", .str "us-east-1")]

/-- A buildConfig that already specifies every defaulted key at both
levels. -/
def fullConfig : JObj :=
  [("container", .str "ubuntu:22.04"), ("serviceAccountName", .str "builds"),
   ("provider", .obj fullProvider),
   ("buildId", .num (JsonNumber.ofInt 126675))]

/-! ## Helper lemmas -/

theorem lookupJ_insertAssoc_self (m : JObj) (k : String) (v : JValue) :
    lookupJ (insertAssoc m k v) k = some v := by
  induction m with
  | nil => simp [insertAssoc, lookupJ]
  | cons h t ih =>
    by_cases hk : h.1 = k
    · simp [insertAssoc, hk, lookupJ]
    · simpa [insertAssoc, hk, lookupJ] using ih

theorem lookupJ_insertAssoc_ne (m : JObj) (k k2 : String) (v : JValue)
    (h : k2 ≠ k) : lookupJ (insertAssoc m k v) k2 = lookupJ m k2 := by
  induction m with
  | nil =>
    have hne : k ≠ k2 := Ne.symm h
    simp [insertAssoc, lookupJ, hne]
  | cons hd t ih =>
    by_cases hk : hd.1 = k
    · subst hk
      have hne : hd.1 ≠ k2 := Ne.symm h
      simp [insertAssoc, lookupJ, hne]
    · by_cases hk2 : hd.1 = k2
      · simp [insertAssoc, hk, lookupJ, hk2, h]
      · simp [insertAssoc, hk, lookupJ, hk2, h, ih]

theorem lookupJ_eq_none (m : JObj) (k : String)
    (h : k ∉ m.map Prod.fst) : lookupJ m k = none := by
  induction m with
  | nil => rfl
  | cons hd t ih =>
    simp only [List.map_cons, List.mem_cons] at h
    push_neg at h
    have hne : hd.1 ≠ k := Ne.symm h.1
    simp [lookupJ, hne, ih h.2]

theorem lookupJ_foldl_insert_not_mem (add : List (String × JValue)) :
    ∀ (base : JObj) (k : String), k ∉ add.map Prod.fst →
    lookupJ (add.foldl (fun m kv => insertAssoc m kv.1 kv.2) base) k =
      lookupJ base k := by
  induction add with
  | nil => intro base k _; rfl
  | cons hd t ih =>
    intro base k h
    simp only [List.map_cons, List.mem_cons] at h
    push_neg at h
    simp only [List.foldl_cons]
    rw [ih _ _ h.2, lookupJ_insertAssoc_ne _ _ _ _ h.1]

theorem lookupJ_foldl_insert_mem (add : List (String × JValue)) :
    ∀ (base : JObj) (k : String), (add.map Prod.fst).Nodup →
    k ∈ add.map Prod.fst →
    lookupJ (add.foldl (fun m kv => insertAssoc m kv.1 kv.2) base) k =
      lookupJ add k := by
  induction add with
  | nil => intro base k _ h; simp at h
  | cons hd t ih =>
    intro base k hnd h
    simp only [List.map_cons, List.nodup_cons] at hnd
    simp only [List.map_cons, List.mem_cons] at h
    simp only [List.foldl_cons]
    by_cases hk : k = hd.1
    · subst hk
      rw [lookupJ_foldl_insert_not_mem t _ _ hnd.1, lookupJ_insertAssoc_self]
      simp [lookupJ]
    · have ht : k ∈ t.map Prod.fst := h.resolve_left hk
      rw [ih _ _ hnd.2 ht]
      have hne : hd.1 ≠ k := Ne.symm hk
      simp [lookupJ, hne]

theorem lookupJ_mergeInto_not_mem (base add : JObj) (k : String)
    (h : k ∉ add.map Prod.fst) :
    lookupJ (mergeInto base add) k = lookupJ base k :=
  lookupJ_foldl_insert_not_mem add base k h

theorem lookupJ_mergeInto_mem (base add : JObj) (k : String)
    (hnd : (add.map Prod.fst).Nodup) (h : k ∈ add.map Prod.fst) :
    lookupJ (mergeInto base add) k = lookupJ add k :=
  lookupJ_foldl_insert_mem add base k hnd h

theorem foldl_defaults_skip (ds : List (String × JValue)) (p : JObj)
    (h : ∀ kv ∈ ds, goIsNil (lookupJ p kv.1) = false) :
    ds.foldl
      (fun m kv => if goIsNil (lookupJ m kv.1) then insertAssoc m kv.1 kv.2 else m)
      p = p := by
  induction ds with
  | nil => rfl
  | cons hd t ih =>
    simp only [List.foldl_cons, h hd (List.mem_cons_self hd t), if_neg, Bool.false_eq_true,
      not_false_iff]
    exact ih fun kv hkv => h kv (List.mem_cons_of_mem hd hkv)

theorem applyProviderDefaults_id (p : JObj)
    (h : ∀ kv ∈ providerDefaults, goIsNil (lookupJ p kv.1) = false) :
    applyProviderDefaults p = p :=
  foldl_defaults_skip providerDefaults p h

theorem GetExecutor_eq (n r : String) (e : ExecutorRef)
    (h : GetExecutor n r = some e) : e = ⟨n, r⟩ := by
  have hunf : GetExecutor n r =
      if ("sls" : String) = n then some ⟨"sls", r⟩
      else if ("eks" : String) = n then some ⟨"eks", r⟩ else none := rfl
  rw [hunf] at h
  by_cases hs : ("sls" : String) = n
  · rw [if_pos hs] at h
    injection h with h2
    rw [← h2, ← hs]
  · rw [if_neg hs] at h
    by_cases he : ("eks" : String) = n
    · rw [if_pos he] at h
      injection h with h2
      rw [← h2, ← he]
    · rw [if_neg he] at h
      exact absurd h (by simp)

theorem ofDigits10_digitsAux (fuel : Nat) :
    ∀ n, n ≤ fuel → ofDigits10 (digitsAux fuel n) = n := by
  induction fuel with
  | zero =>
    intro n h
    have : n = 0 := Nat.le_zero.mp h
    simp [this, digitsAux, ofDigits10]
  | succ f ih =>
    intro n h
    by_cases h0 : n = 0
    · simp [h0, digitsAux, ofDigits10]
    · have hlt : n / 10 < n := Nat.div_lt_self (Nat.pos_of_ne_zero h0) (by omega)
      have hle : n / 10 ≤ f := by omega
      simp only [digitsAux, h0, if_false, ofDigits10]
      rw [ih _ hle]
      omega

theorem digits10_roundtrip (n : Nat) : ofDigits10 (digits10 n) = n :=
  ofDigits10_digitsAux n n (Nat.le_refl n)

theorem JsonNumber.toInt_ofInt (n : Int) : (JsonNumber.ofInt n).toInt = n := by
  simp only [JsonNumber.ofInt, JsonNumber.toInt, digits10_roundtrip]
  by_cases h : n < 0
  · rw [if_pos (decide_eq_true h)]
    omega
  · rw [if_neg (by simpa using h)]
    omega

theorem JsonNumber.int64_ofInt (n : Int) (h1 : int64Min ≤ n) (h2 : n ≤ int64Max) :
    (JsonNumber.ofInt n).int64 = n := by
  unfold JsonNumber.int64
  rw [JsonNumber.toInt_ofInt]
  rw [if_neg (by omega), if_neg (by omega)]

theorem completions_of_not_fatal (env : Env) (rec : RawRecord)
    (h : bodyFatal env rec = false) : (ProcessMessage env rec).completions = 1 := by
  unfold bodyFatal at h
  unfold ProcessMessage
  cases houtcome : (processBody env rec).outcome with
  | fatal => rw [houtcome] at h; simp at h
  | normal => simp [houtcome]
  | panicked tag => simp [houtcome]

theorem partitionCompletions_aux (env : Env) (recs : List RawRecord) :
    ∀ acc : Nat, (∀ r ∈ recs, bodyFatal env r = false) →
    recs.foldl (fun a r => a + (ProcessMessage env r).completions) acc =
      acc + recs.length := by
  induction recs with
  | nil => intro acc _; simp
  | cons hd t ih =>
    intro acc h
    simp only [List.foldl_cons, List.length_cons]
    rw [completions_of_not_fatal env hd (h hd (List.mem_cons_self hd t))]
    rw [ih (acc + 1) fun r hr => h r (List.mem_cons_of_mem hd hr)]
    omega

theorem partitionCompletions_eq (env : Env) (recs : List RawRecord)
    (h : ∀ r ∈ recs, bodyFatal env r = false) :
    partitionCompletions env recs = recs.length := by
  unfold partitionCompletions
  rw [partitionCompletions_aux env recs 0 h]
  omega

theorem totalRecords_shift (t : KafkaEvent) :
    ∀ a : Nat, t.foldl (fun acc p => acc + p.2.length) a =
      a + t.foldl (fun acc p => acc + p.2.length) 0 := by
  induction t with
  | nil => intro a; simp
  | cons hd t2 ih =>
    intro a
    simp only [List.foldl_cons]
    rw [ih (a + hd.2.length), ih (0 + hd.2.length)]
    omega

theorem totalRecords_cons (hd : String × List RawRecord) (t : KafkaEvent) :
    totalRecords (hd :: t) = hd.2.length + totalRecords t := by
  unfold totalRecords
  simp only [List.foldl_cons]
  rw [totalRecords_shift t (0 + hd.2.length)]
  omega

theorem totalCompletions_aux (env : Env) (request : KafkaEvent) :
    ∀ acc : Nat, (∀ p ∈ request, ∀ r ∈ p.2, bodyFatal env r = false) →
    request.foldl (fun a p => a + partitionCompletions env p.2) acc =
      acc + totalRecords request := by
  induction request with
  | nil => intro acc _; simp [totalRecords]
  | cons hd t ih =>
    intro acc h
    simp only [List.foldl_cons]
    rw [partitionCompletions_eq env hd.2 (h hd (List.mem_cons_self hd t))]
    rw [ih _ fun p hp r hr => h p (List.mem_cons_of_mem hd hp) r hr]
    rw [totalRecords_cons]
    omega

theorem allNonFatal_spec (env : Env) (request : KafkaEvent)
    (h : allNonFatal env request = true) :
    ∀ p ∈ request, ∀ r ∈ p.2, bodyFatal env r = false := by
  intro p hp r hr
  unfold allNonFatal at h
  rw [List.all_eq_true] at h
  have := h p hp
  rw [List.all_eq_true] at this
  have := this r hr
  simpa using this

theorem totalCompletions_eq (env : Env) (request : KafkaEvent)
    (h : allNonFatal env request = true) :
    totalCompletions env request = totalRecords request := by
  unfold totalCompletions
  rw [totalCompletions_aux env request 0 (allNonFatal_spec env request h)]
  omega

theorem finishDispatch_calls (cfg : JObj) (calls : List ExecCall)
    (hostname : String) (err : Option String) :
    (finishDispatch cfg calls hostname err).calls = calls := by
  unfold finishDispatch
  cases extractBuildID cfg with
  | none => rfl
  | some b =>
    cases lookupJ cfg "apiUri" with
    | none => rfl
    | some v =>
      cases v with
      | str s =>
        cases lookupJ cfg "token" with
        | none => rfl
        | some v2 => cases v2 <;> rfl
      | null => rfl
      | bool b2 => rfl
      | num j => rfl
      | arr xs => rfl
      | obj o => rfl

theorem dispatchStart_calls (env : Env) (cfg : JObj) (berr : Option String)
    (e : ExecutorRef) :
    (dispatchStart env cfg berr (some e)).calls =
      [ExecCall.start e.name e.region cfg] := by
  unfold dispatchStart
  rw [finishDispatch_calls]

theorem dispatchStop_calls (env : Env) (cfg : JObj) (berr : Option String)
    (e : ExecutorRef) :
    (dispatchStop env cfg berr (some e)).calls =
      [ExecCall.stop e.name e.region cfg] := by
  unfold dispatchStop
  rw [finishDispatch_calls]

theorem processRegion_calls_of_skip (env : Env) (msg : BuildMessage)
    (berr : Option String) (cfg : JObj) (ro : Option String)
    (h : msg.job = "" ∨ msg.executorType = "") :
    (processRegion env msg berr cfg ro).calls = [] := by
  cases ro with
  | none => rfl
  | some region =>
    show (if msg.executorType ≠ "" ∧ msg.job ≠ "" then
        dispatchAndReport env msg cfg region berr
      else ⟨.normal, [], false, "", 0, berr⟩).calls = []
    rw [if_neg]
    intro hcon
    rcases h with h | h
    · exact hcon.2 h
    · exact hcon.1 h

theorem processDecoded_calls_of_skip (env : Env) (msg : BuildMessage)
    (berr : Option String) (h : msg.job = "" ∨ msg.executorType = "") :
    (processDecoded env msg berr).calls = [] := by
  unfold processDecoded processProvider
  cases lookupJ msg.buildConfig "provider" with
  | none => rfl
  | some v =>
    cases v with
    | obj p => exact processRegion_calls_of_skip env msg berr _ _ h
    | null => rfl
    | bool b => rfl
    | num j => rfl
    | str s => rfl
    | arr xs => rfl

theorem processDecoded_provider_panic (env : Env) (msg : BuildMessage)
    (berr : Option String) (hprov : providerNotObj msg.buildConfig = true) :
    processDecoded env msg berr =
      ⟨.panicked "provider-assert", [], false, "", 0, berr⟩ := by
  unfold providerNotObj at hprov
  unfold processDecoded processProvider
  cases hl : lookupJ msg.buildConfig "provider" with
  | none => rfl
  | some v =>
    rw [hl] at hprov
    cases v with
    | obj p => simp at hprov
    | null => rfl
    | bool b => rfl
    | num j => rfl
    | str s => rfl
    | arr xs => rfl

theorem mem_of_containsKey (m : JObj) (k : String)
    (h : containsKey m k = true) : k ∈ m.map Prod.fst := by
  induction m with
  | nil => simp [containsKey, lookupJ] at h
  | cons hd t ih =>
    by_cases hk : hd.1 = k
    · simp [hk]
    · simp only [containsKey, lookupJ, hk, if_false] at h
      exact List.mem_cons_of_mem _ (ih h)

/-! ## Claim theorems -/

/-- C1 (counterexample): the claim "for every inbound event,
HandleRequest returns the summary string with a nil error" fails at the
concrete event with one partition holding one record whose payload is
the empty string: base64 decoding yields the empty text, the JSON
decoder errors, and `log.Fatal` terminates the process, so the
invocation never returns the summary. -/
theorem handleRequest_not_total_cex :
    HandleRequest defaultEnv [("0", [emptyPayloadRecord])] ≠
      HandleResult.ret "Finished processing messages: 1" none := by
  intro hcontra
  have hfatal : HandleRequest defaultEnv [("0", [emptyPayloadRecord])] =
      HandleResult.fatal := rfl
  rw [hfatal] at hcontra
  exact HandleResult.noConfusion hcontra

/-- C1 (amended): for every inbound event none of whose records
triggers the fatal JSON-decode exit, HandleRequest returns
"Finished processing messages: " ++ total (total = sum of the
record-list lengths over all partitions) with a nil error; in
particular an event with zero partitions returns
"Finished processing messages: 0" and makes no executor call. -/
theorem handleRequest_summary (env : Env) (request : KafkaEvent)
    (h : allNonFatal env request = true) :
    HandleRequest env request = .ret (summaryString request) none ∧
    HandleRequest env [] = .ret "Finished processing messages: 0" none ∧
    allCalls env [] = [] := by
  refine ⟨?_, rfl, rfl⟩
  unfold HandleRequest
  rw [if_pos h]

/-- C1 (witness): the amended theorem applied to a one-record event. -/
theorem handleRequest_summary_witness :
    HandleRequest defaultEnv [("p0", [startEksRecord])] =
      .ret (summaryString [("p0", [startEksRecord])]) none ∧
    HandleRequest defaultEnv [] = .ret "Finished processing messages: 0" none ∧
    allCalls defaultEnv [] = [] :=
  handleRequest_summary defaultEnv [("p0", [startEksRecord])] (by decide)

/-- C2 (code bug): a record whose decoded text is not valid JSON (for
example, an empty payload) makes the worker exit through `log.Fatal`:
`os.Exit` runs no deferred function, so the WaitGroup is never
decremented — a partition of 1 record observes 0 completions, not 1,
contradicting "each worker signals completion exactly once on every
exit path". -/
theorem worker_fatal_skips_completion_bug :
    partitionCompletions defaultEnv [emptyPayloadRecord] = 0 ∧
    [emptyPayloadRecord].length = 1 ∧
    (ProcessMessage defaultEnv emptyPayloadRecord).completions = 0 ∧
    (ProcessMessage defaultEnv emptyPayloadRecord).fatal = true :=
  ⟨rfl, rfl, rfl, rfl⟩

/-- C4 (code bug): for a record with `job = "start"` and
`executorType = "unknown"`, `GetExecutor` returns the nil executor and
`executor.Start(buildConfig)` panics — the claim's "no panic occurs" is
violated, although indeed no executor method is invoked and the record
is still counted (the worker signals completion after the recovered
panic). -/
theorem nil_executor_dispatch_panics_bug :
    GetExecutor "unknown" "us-east-1" = none ∧
    (processBody defaultEnv unknownExecRecord).outcome =
      .panicked "nil-executor" ∧
    (processBody defaultEnv unknownExecRecord).calls = [] ∧
    (ProcessMessage defaultEnv unknownExecRecord).completions = 1 ∧
    (ProcessMessage defaultEnv unknownExecRecord).recov.recovered = true :=
  ⟨rfl, rfl, rfl, rfl, rfl⟩

/-- C5 (code bug): the batch invocation does not return normally for
every event: one record with an empty payload drives a worker into
`log.Fatal`, which exits the process (not a panic, so neither
`recoverPanic` nor `finalRecover` can intercept it), even though
`finalRecover` itself never re-raises. -/
theorem batch_fatal_exit_bug :
    HandleRequest defaultEnv
      [("p0", [startEksRecord]), ("p1", [emptyPayloadRecord])] =
      HandleResult.fatal ∧
    ∀ p : Option String, (finalRecover p).reRaised = false := by
  constructor
  · rfl
  · intro p
    cases p <;> rfl

/-- C9 (code bug): for a record whose payload is not valid base64, the
base64 error is only logged (the error value is carried on) and
processing continues on the partially decoded text — but when that text
is not valid JSON (the normal case, e.g. an empty decoded prefix) the
worker hits `log.Fatal` and aborts the whole process instead of
degrading to a no-op. -/
theorem invalid_base64_fatal_bug :
    (processBody defaultEnv invalidBase64Record).dispatchErr =
      some "illegal base64 data" ∧
    (processBody defaultEnv invalidBase64Record).outcome = .fatal ∧
    (processBody defaultEnv invalidBase64Record).calls = [] ∧
    (ProcessMessage defaultEnv invalidBase64Record).completions = 0 ∧
    (ProcessMessage defaultEnv invalidBase64Record).fatal = true :=
  ⟨rfl, rfl, rfl, rfl, rfl⟩

/-- C3 (confirmed): a worker whose body panics at any stage has the
panic consumed by the deferred `recoverPanic` (which logs it and writes
the stack trace to the timestamped temp-file artifact best-effort,
never re-raising); the deferred `wg.Done` still runs exactly once, the
goroutine exits cleanly, and in any all-decodable batch containing the
record the summary still counts every record and every sibling worker
still signals completion. -/
theorem worker_panic_isolated (env : Env) (rec : RawRecord) (tag k : String)
    (pre post : List RawRecord) (rest : KafkaEvent)
    (hpanic : (processBody env rec).outcome = .panicked tag)
    (hbatch : allNonFatal env ((k, pre ++ rec :: post) :: rest) = true) :
    (ProcessMessage env rec).completions = 1 ∧
    (ProcessMessage env rec).escaped = false ∧
    (ProcessMessage env rec).fatal = false ∧
    (ProcessMessage env rec).recov = recoverPanic env (some tag) ∧
    (recoverPanic env (some tag)).reRaised = false ∧
    (recoverPanic env (some tag)).loggedPanic = true ∧
    (recoverPanic env (some tag)).artifact = recoverArtifact env ∧
    HandleRequest env ((k, pre ++ rec :: post) :: rest) =
      .ret (summaryString ((k, pre ++ rec :: post) :: rest)) none ∧
    totalCompletions env ((k, pre ++ rec :: post) :: rest) =
      totalRecords ((k, pre ++ rec :: post) :: rest) := by
  refine ⟨?_, ?_, ?_, ?_, rfl, rfl, rfl, ?_, ?_⟩
  · simp [ProcessMessage, hpanic]
  · simp [ProcessMessage, hpanic, recoverPanic]
  · simp [ProcessMessage, hpanic]
  · simp [ProcessMessage, hpanic]
  · unfold HandleRequest
    rw [if_pos hbatch]
  · exact totalCompletions_eq env _ hbatch

/-- C3 (witness): a record whose decoded message has no provider key
panics at the provider assertion; in a two-record partition the panic
is recovered, both workers complete and the summary counts 2. -/
theorem worker_panic_isolated_witness :
    (ProcessMessage defaultEnv missingProviderRecord).completions = 1 ∧
    (ProcessMessage defaultEnv missingProviderRecord).escaped = false ∧
    (ProcessMessage defaultEnv missingProviderRecord).fatal = false ∧
    (ProcessMessage defaultEnv missingProviderRecord).recov =
      recoverPanic defaultEnv (some "provider-assert") ∧
    (recoverPanic defaultEnv (some "provider-assert")).reRaised = false ∧
    (recoverPanic defaultEnv (some "provider-assert")).loggedPanic = true ∧
    (recoverPanic defaultEnv (some "provider-assert")).artifact =
      recoverArtifact defaultEnv ∧
    HandleRequest defaultEnv [("p0", [missingProviderRecord, startEksRecord])] =
      .ret (summaryString [("p0", [missingProviderRecord, startEksRecord])])
        none ∧
    totalCompletions defaultEnv
      [("p0", [missingProviderRecord, startEksRecord])] =
      totalRecords [("p0", [missingProviderRecord, startEksRecord])] :=
  worker_panic_isolated defaultEnv missingProviderRecord "provider-assert"
    "p0" [] [startEksRecord] [] (by rfl) (by decide)

/-- C8 (confirmed): a build ID stored in the config as the
`json.Number` of the JSON integer literal for `n` (the form the
`UseNumber` decoder produces) is extracted by the
`buildConfig["buildId"].(json.Number).Int64()` step as exactly `n`
whenever `n` is in the int64 range — no floating-point approximation is
involved. -/
theorem buildId_integer_fidelity (cfg : JObj) (n : Int)
    (h1 : lookupJ cfg "buildId" = some (.num (JsonNumber.ofInt n)))
    (h2 : int64Min ≤ n) (h3 : n ≤ int64Max) :
    extractBuildID cfg = some n := by
  unfold extractBuildID
  rw [h1]
  show some ((JsonNumber.ofInt n).int64) = some n
  rw [JsonNumber.int64_ofInt n h2 h3]

/-- C8 (witness): the domain value 353239 round-trips exactly. -/
theorem buildId_integer_fidelity_witness :
    extractBuildID sampleConfig = some 353239 :=
  buildId_integer_fidelity sampleConfig 353239 (by rfl) (by decide) (by decide)

/-- C10 (confirmed): a decoded message whose buildConfig has no
"provider" key (or a non-object value there) panics at the provider
type assertion before the job/executorType guard, so no executor
method is invoked; the worker's deferred recovery consumes the panic
and completion is still signalled — a recovered no-op, not a handled
error. -/
theorem missing_provider_recovered_noop (env : Env) (rec : RawRecord)
    (ast : JValue) (msg : BuildMessage)
    (hjson : rec.json = some ast)
    (hdec : decodeBuildMessage ast = .ok msg)
    (hprov : providerNotObj msg.buildConfig = true) :
    (processBody env rec).outcome = .panicked "provider-assert" ∧
    (processBody env rec).calls = [] ∧
    (ProcessMessage env rec).completions = 1 ∧
    (ProcessMessage env rec).escaped = false ∧
    (ProcessMessage env rec).fatal = false ∧
    (ProcessMessage env rec).recov.recovered = true := by
  have hbody : processBody env rec =
      ⟨.panicked "provider-assert", [], false, "", 0,
        if rec.b64ok then none else some "illegal base64 data"⟩ := by
    unfold processBody
    rw [hjson]
    show (match decodeBuildMessage ast with
      | .fatal => _
      | .nilMsg => _
      | .ok msg => processDecoded env msg
          (if rec.b64ok then none else some "illegal base64 data")) = _
    rw [hdec]
    exact processDecoded_provider_panic env msg _ hprov
  refine ⟨?_, ?_, ?_, ?_, ?_, ?_⟩ <;>
    simp [ProcessMessage, hbody, recoverPanic]

/-- C10 (witness): the record whose message carries no buildConfig at
all (so its config is just the two top-level defaults). -/
theorem missing_provider_recovered_noop_witness :
    (processBody defaultEnv missingProviderRecord).outcome =
      .panicked "provider-assert" ∧
    (processBody defaultEnv missingProviderRecord).calls = [] ∧
    (ProcessMessage defaultEnv missingProviderRecord).completions = 1 ∧
    (ProcessMessage defaultEnv missingProviderRecord).escaped = false ∧
    (ProcessMessage defaultEnv missingProviderRecord).fatal = false ∧
    (ProcessMessage defaultEnv missingProviderRecord).recov.recovered = true :=
  missing_provider_recovered_noop defaultEnv missingProviderRecord
    (.obj [("job", .str "start"), ("executorType", .str "eks")])
    ⟨"start", topDefaults, "eks"⟩ (by rfl) (by rfl) (by rfl)

/-- C6 (counterexample): the claim "for every decoded message with
non-empty job and executorType, job = start invokes exactly
executor.Start" fails at a start/eks message whose provider sub-map is
empty: the region type assertion panics before the dispatch, so no
executor method is invoked. -/
theorem dispatch_requires_region_cex :
    noRegionMessage.job = "start" ∧
    noRegionMessage.executorType = "eks" ∧
    (processDecoded defaultEnv noRegionMessage none).calls = [] ∧
    (processDecoded defaultEnv noRegionMessage none).outcome =
      .panicked "region-assert" :=
  ⟨rfl, rfl, rfl, rfl⟩

/-- C6 (amended): for every decoded message with non-empty job and
executorType whose merged provider resolves a region (buildRegion a
string, region a string when buildRegion is empty) and whose
executorType matches a registered executor, the dispatch is by job:
"start" produces exactly the Start call on the merged config, "stop"
exactly the Stop call, and any other job value produces neither; a
message with an empty job or executorType makes no executor call. -/
theorem dispatch_by_job (env : Env) (msg msg2 : BuildMessage)
    (berr berr2 : Option String) (p : JObj) (region : String)
    (h1 : lookupJ msg.buildConfig "provider" = some (.obj p))
    (h2 : resolveRegion (applyProviderDefaults p) = some region)
    (h3 : msg.job ≠ "") (h4 : msg.executorType ≠ "")
    (h5 : (GetExecutor msg.executorType region).isSome = true)
    (h6 : msg2.job = "" ∨ msg2.executorType = "") :
    (processDecoded env msg berr).calls =
      (if msg.job = "start" then
        [ExecCall.start msg.executorType region
          (insertAssoc msg.buildConfig "provider"
            (.obj (applyProviderDefaults p)))]
      else if msg.job = "stop" then
        [ExecCall.stop msg.executorType region
          (insertAssoc msg.buildConfig "provider"
            (.obj (applyProviderDefaults p)))]
      else []) ∧
    (processDecoded env msg2 berr2).calls = [] := by
  constructor
  · have hstep : processDecoded env msg berr =
        dispatchAndReport env msg
          (insertAssoc msg.buildConfig "provider"
            (.obj (applyProviderDefaults p))) region berr := by
      unfold processDecoded
      rw [h1]
      show processRegion env msg berr
        (insertAssoc msg.buildConfig "provider"
          (.obj (applyProviderDefaults p)))
        (resolveRegion (applyProviderDefaults p)) = _
      rw [h2]
      show (if msg.executorType ≠ "" ∧ msg.job ≠ "" then
          dispatchAndReport env msg
            (insertAssoc msg.buildConfig "provider"
              (.obj (applyProviderDefaults p))) region berr
        else ⟨.normal, [], false, "", 0, berr⟩) = _
      rw [if_pos ⟨h4, h3⟩]
    rw [hstep]
    obtain ⟨e, he⟩ := Option.isSome_iff_exists.mp h5
    have hee := GetExecutor_eq _ _ _ he
    subst hee
    unfold dispatchAndReport
    by_cases hstart : msg.job = "start"
    · simp only [if_pos hstart]
      rw [he, dispatchStart_calls]
    · by_cases hstop : msg.job = "stop"
      · simp only [if_neg hstart, if_pos hstop]
        rw [he, dispatchStop_calls]
      · simp only [if_neg hstart, if_neg hstop]
        rw [finishDispatch_calls]
  · exact processDecoded_calls_of_skip env msg2 berr2 h6

/-- C6 (witness): the amended theorem at a concrete start/eks message
and a concrete empty-job message. -/
theorem dispatch_by_job_witness :
    (processDecoded defaultEnv startEksMessage none).calls =
      (if startEksMessage.job = "start" then
        [ExecCall.start startEksMessage.executorType "us-east-1"
          (insertAssoc startEksMessage.buildConfig "provider"
            (.obj (applyProviderDefaults sampleProvider)))]
      else if startEksMessage.job = "stop" then
        [ExecCall.stop startEksMessage.executorType "us-east-1"
          (insertAssoc startEksMessage.buildConfig "provider"
            (.obj (applyProviderDefaults sampleProvider)))]
      else []) ∧
    (processDecoded defaultEnv emptyJobMessage none).calls = [] :=
  dispatch_by_job defaultEnv startEksMessage emptyJobMessage none none
    sampleProvider "us-east-1" (by rfl) (by decide) (by decide) (by decide)
    (by rfl) (Or.inl rfl)

/-- C7 (confirmed): defaulting never overwrites supplied data. The
top-level mechanism seeds `container`/`serviceAccountName` and lets the
decoded JSON overwrite them, so a config supplying both keys reads back
exactly as supplied at every key; the provider loop only assigns keys
whose current value is Go-nil, so a provider binding every default key
non-null is returned unchanged (structurally). The third conjunct ties
the merge to the decoder itself. -/
theorem defaulting_idempotent (cfgJson p : JObj) (k : String)
    (hnd : (cfgJson.map Prod.fst).Nodup)
    (hc : containsKey cfgJson "container" = true)
    (hs : containsKey cfgJson "serviceAccountName" = true)
    (hp : ∀ kv ∈ providerDefaults, goIsNil (lookupJ p kv.1) = false) :
    lookupJ (mergeInto topDefaults cfgJson) k = lookupJ cfgJson k ∧
    applyProviderDefaults p = p ∧
    decodeBuildMessage (.obj [("buildConfig", .obj cfgJson)]) =
      .ok ⟨"", mergeInto topDefaults cfgJson, ""⟩ := by
  refine ⟨?_, applyProviderDefaults_id p hp, rfl⟩
  by_cases hk : k ∈ cfgJson.map Prod.fst
  · exact lookupJ_mergeInto_mem topDefaults cfgJson k hnd hk
  · rw [lookupJ_mergeInto_not_mem topDefaults cfgJson k hk]
    rw [lookupJ_eq_none cfgJson k hk]
    have hkc : k ≠ "container" := by
      intro h
      exact hk (by rw [h]; exact mem_of_containsKey _ _ hc)
    have hks : k ≠ "serviceAccountName" := by
      intro h
      exact hk (by rw [h]; exact mem_of_containsKey _ _ hs)
    show (if "container" = k then some (JValue.str "aws/codebuild/standard:5.0")
      else if "serviceAccountName" = k then some (JValue.str "default")
      else none) = none
    rw [if_neg (Ne.symm hkc), if_neg (Ne.symm hks)]

/-- C7 (witness): a fully specified config and provider come back
unchanged. -/
theorem defaulting_idempotent_witness :
    lookupJ (mergeInto topDefaults fullConfig) "container" =
      lookupJ fullConfig "container" ∧
    applyProviderDefaults fullProvider = fullProvider ∧
    decodeBuildMessage (.obj [("buildConfig", .obj fullConfig)]) =
      .ok ⟨"", mergeInto topDefaults fullConfig, ""⟩ :=
  defaulting_idempotent fullConfig fullProvider "container" (by decide)
    (by rfl) (by rfl) (by decide)

end AwsConsumer
